import Mathlib

/-!
Verification of the pet-filter ULP NH3 monitor firmware.

The program under study is `src/firmware/ulp/ulp_nh3_monitor.c`: a ULP RISC-V
polling loop that reads an ADC channel, maintains a consecutive-above-threshold
counter over six shared `uint32_t` variables, and wakes the main processor once
the counter reaches the confirm count.  The export shim
`src/firmware/ulp_nh3_component/ulp_exports.c` re-exports the six shared
symbols to the host.

The embedding below models the shared variables as a record of natural numbers
(with `uint32_t` arithmetic taken modulo `2 ^ 32`), one loop iteration of
`main` as a `step` function consuming one ADC read result, and the whole loop
as `run` over a list of read results.  An ADC read result is an `Int`: the C
function `ulp_riscv_adc_read_channel` returns an `int32_t`, negative on
failure, so a value is a successful reading exactly when it is non-negative
(and any successful reading is below `2 ^ 31`).
-/

namespace PetFilter

/-- `uint32_t` modulus. -/
def W : Nat := 2 ^ 32

/-- The six shared variables of `ulp_nh3_monitor.c`, lines 18-23, with their
initializers.  All are `volatile uint32_t` living in RTC_SLOW_MEM. -/
structure UlpState where
  ulp_nh3_threshold_adc : Nat
  ulp_nh3_last_reading : Nat
  ulp_nh3_above_count : Nat
  ulp_nh3_confirm_count : Nat
  ulp_cycle_count : Nat
  ulp_stop_flag : Nat
deriving DecidableEq

/-- Initial values of the shared variables, from their C initializers. -/
def initState : UlpState :=
  { ulp_nh3_threshold_adc := 1500
    ulp_nh3_last_reading := 0
    ulp_nh3_above_count := 0
    ulp_nh3_confirm_count := 3
    ulp_cycle_count := 0
    ulp_stop_flag := 0 }

/-- Outcome of one loop iteration (or of a whole run):
`cont s` - the `while` loop is back at its top with shared state `s`;
`woke s` - `ulp_riscv_wakeup_main_processor()` then `ulp_riscv_halt()` ran;
`halted s` - the stop flag was set at the loop top, the loop exited and the
final `ulp_riscv_halt()` ran. -/
inductive MonitorResult where
  | cont (s : UlpState)
  | woke (s : UlpState)
  | halted (s : UlpState)
deriving DecidableEq

/-- The shared state carried by an outcome. -/
def MonitorResult.state : MonitorResult → UlpState
  | .cont s => s
  | .woke s => s
  | .halted s => s

/-- One iteration of the `while (!ulp_stop_flag)` loop in `main`
(`ulp_nh3_monitor.c`, lines 31-53), given the result `raw` of
`ulp_riscv_adc_read_channel`.  The stop flag is tested at the loop top; a
negative `raw` only delays and retries (`continue`); otherwise the reading is
recorded, the cycle count incremented, and the threshold comparison
`(uint32_t)raw >= ulp_nh3_threshold_adc` drives the above-count.  Since a
successful `int32_t` reading is non-negative and below `2 ^ 31 < 2 ^ 32`, the
C cast `(uint32_t)raw` is value-preserving and is modelled by `raw.toNat`. -/
def step (s : UlpState) (raw : Int) : MonitorResult :=
  if s.ulp_stop_flag ≠ 0 then .halted s
  else if raw < 0 then .cont s
  else if s.ulp_nh3_threshold_adc ≤ raw.toNat then
    if s.ulp_nh3_confirm_count ≤ (s.ulp_nh3_above_count + 1) % W then
      .woke { s with ulp_nh3_last_reading := raw.toNat
                     ulp_cycle_count := (s.ulp_cycle_count + 1) % W
                     ulp_nh3_above_count := (s.ulp_nh3_above_count + 1) % W }
    else
      .cont { s with ulp_nh3_last_reading := raw.toNat
                     ulp_cycle_count := (s.ulp_cycle_count + 1) % W
                     ulp_nh3_above_count := (s.ulp_nh3_above_count + 1) % W }
  else
    .cont { s with ulp_nh3_last_reading := raw.toNat
                   ulp_cycle_count := (s.ulp_cycle_count + 1) % W
                   ulp_nh3_above_count := 0 }

/-- The sampling loop of `main`, consuming a finite list of successive ADC
read results.  `cont` means the supplied readings ran out with the loop still
at its top; `woke` and `halted` end the program and leave the remaining
readings unconsumed. -/
def run (s : UlpState) : List Int → MonitorResult
  | [] => .cont s
  | r :: rs =>
    match step s r with
    | .cont s' => run s' rs
    | .woke s' => .woke s'
    | .halted s' => .halted s'

/-- The values of the successful readings in a list of ADC read results, in
order: failures (negative results) are dropped, successes are kept as the
natural numbers the loop compares against the threshold. -/
def successVals (rs : List Int) : List Nat :=
  rs.filterMap (fun r => if 0 ≤ r then some r.toNat else none)

/-- Spec-side: the number of consecutive readings at or above `thr` at the
head of a reading sequence. -/
def aboveRun (thr : Nat) : List Nat → Nat
  | [] => 0
  | v :: vs => if thr ≤ v then aboveRun thr vs + 1 else 0

/-- Spec-side rendering of "`c` consecutive readings at or above the threshold
`thr` have occurred": somewhere in the sequence, at least `c` consecutive
readings are at or above `thr`. -/
def ConsecutiveAbove (thr c : Nat) (vs : List Nat) : Prop :=
  ∃ i, c ≤ aboveRun thr (vs.drop i)

/-- The six shared variable names of `ulp_nh3_monitor.c`, in declaration
order. -/
def sharedVariableNames : List String :=
  ["ulp_nh3_threshold_adc", "ulp_nh3_last_reading", "ulp_nh3_above_count",
   "ulp_nh3_confirm_count", "ulp_cycle_count", "ulp_stop_flag"]

/-- The symbols whose addresses populate the `petfilter_ulp_symbols` array in
`ulp_exports.c`, in array order.  Each is the host-side (generated,
`ulp_`-prefixed) name of one shared variable. -/
def petfilter_ulp_symbols : List String :=
  ["ulp_ulp_nh3_threshold_adc", "ulp_ulp_nh3_last_reading",
   "ulp_ulp_nh3_above_count", "ulp_ulp_nh3_confirm_count",
   "ulp_ulp_cycle_count", "ulp_ulp_stop_flag"]

/-! ### Helper lemmas about one iteration -/

@[simp] lemma MonitorResult.state_cont (s : UlpState) :
    (MonitorResult.cont s).state = s := rfl

@[simp] lemma MonitorResult.state_woke (s : UlpState) :
    (MonitorResult.woke s).state = s := rfl

@[simp] lemma MonitorResult.state_halted (s : UlpState) :
    (MonitorResult.halted s).state = s := rfl

lemma run_cons (s : UlpState) (r : Int) (rs : List Int) :
    run s (r :: rs) =
      match step s r with
      | .cont s' => run s' rs
      | .woke s' => .woke s'
      | .halted s' => .halted s' := rfl

/-- The loop never writes the threshold, the confirm count or the stop flag:
whatever one iteration does, those three fields are unchanged. -/
lemma step_state_const (s : UlpState) (raw : Int) :
    ((step s raw).state).ulp_nh3_threshold_adc = s.ulp_nh3_threshold_adc ∧
    ((step s raw).state).ulp_nh3_confirm_count = s.ulp_nh3_confirm_count ∧
    ((step s raw).state).ulp_stop_flag = s.ulp_stop_flag := by
  unfold step
  split_ifs <;> simp

/-- Field preservation transported to a `cont` outcome. -/
lemma cont_fields {s s' : UlpState} {raw : Int} (h : step s raw = .cont s') :
    s'.ulp_nh3_threshold_adc = s.ulp_nh3_threshold_adc ∧
    s'.ulp_nh3_confirm_count = s.ulp_nh3_confirm_count ∧
    s'.ulp_stop_flag = s.ulp_stop_flag := by
  have hc := step_state_const s raw
  rw [h] at hc
  simpa using hc

/-! ### Claims C2 - C7 -/

/-- Claim C2: in every loop iteration (stop flag clear at the top), the
consecutive-above counter `ulp_nh3_above_count` is unchanged by a failed read,
becomes `0` immediately after a successful reading strictly below the
threshold, and is incremented (as a `uint32_t`) exactly on successful readings
at or above the threshold. -/
theorem above_count_reset_and_increment (s : UlpState) (raw : Int)
    (h0 : s.ulp_stop_flag = 0) :
    (raw < 0 →
      ((step s raw).state).ulp_nh3_above_count = s.ulp_nh3_above_count) ∧
    (0 ≤ raw → raw.toNat < s.ulp_nh3_threshold_adc →
      ((step s raw).state).ulp_nh3_above_count = 0) ∧
    (0 ≤ raw → s.ulp_nh3_threshold_adc ≤ raw.toNat →
      ((step s raw).state).ulp_nh3_above_count =
        (s.ulp_nh3_above_count + 1) % W) := by
  unfold step
  split_ifs with h1 h2 h3 <;> refine ⟨fun hn => ?_, fun hp hb => ?_, fun hp ha => ?_⟩ <;>
    simp_all <;> omega

/-- Witness for C2 at a concrete input: the initial state with an
above-threshold reading of 1600. -/
theorem above_count_reset_and_increment_witness :
    initState.ulp_stop_flag = 0 ∧
    ((0 : Int) ≤ 1600 →
      initState.ulp_nh3_threshold_adc ≤ (1600 : Int).toNat →
      ((step initState 1600).state).ulp_nh3_above_count =
        (initState.ulp_nh3_above_count + 1) % W) :=
  ⟨rfl, (above_count_reset_and_increment initState 1600 rfl).2.2⟩

/-- Claim C3: the cycle counter `ulp_cycle_count` is incremented (as a
`uint32_t`) exactly once per successful sensor read, and is left unchanged by
an iteration whose read fails. -/
theorem cycle_count_per_read (s : UlpState) (raw : Int)
    (h0 : s.ulp_stop_flag = 0) :
    ((step s raw).state).ulp_cycle_count =
      if 0 ≤ raw then (s.ulp_cycle_count + 1) % W else s.ulp_cycle_count := by
  unfold step
  split_ifs <;> simp_all <;> omega

/-- Witness for C3 at a concrete input: a successful read in the initial
state, and a failed read in the initial state. -/
theorem cycle_count_per_read_witness :
    initState.ulp_stop_flag = 0 ∧
    ((step initState 1600).state).ulp_cycle_count =
      (if (0 : Int) ≤ 1600 then (initState.ulp_cycle_count + 1) % W
       else initState.ulp_cycle_count) :=
  ⟨rfl, cycle_count_per_read initState 1600 rfl⟩

/-- Claim C4: a failed read (negative return) makes the iteration a pure
retry: the outcome is `cont s` with the state literally unchanged, so every
shared variable keeps its value, the loop waits one interval and tries again,
and the failure is never fatal (no `halted`, no `woke`). -/
theorem read_failure_is_transient (s : UlpState) (raw : Int)
    (h0 : s.ulp_stop_flag = 0) (hneg : raw < 0) :
    step s raw = .cont s := by
  simp [step, h0, hneg]

/-- Witness for C4 at a concrete input: a failed read (-3) in the initial
state. -/
theorem read_failure_is_transient_witness :
    initState.ulp_stop_flag = 0 ∧ (-3 : Int) < 0 ∧
    step initState (-3) = .cont initState :=
  ⟨rfl, by decide, read_failure_is_transient initState (-3) rfl (by decide)⟩

/-- Claim C5: the loop runs until the stop flag is set.  If the stop flag is
nonzero at the top of an iteration, the whole remaining run halts at once with
the state unchanged and no reading consumed; if it is zero, the iteration
never produces `halted`, i.e. the loop continues (or wakes). -/
theorem stop_flag_terminates (s : UlpState) (raw : Int) (rs : List Int) :
    (s.ulp_stop_flag ≠ 0 → run s (raw :: rs) = .halted s) ∧
    (s.ulp_stop_flag = 0 → ∀ s', step s raw ≠ .halted s') := by
  constructor
  · intro h
    rw [run_cons]
    simp [step, h]
  · intro h s' hcon
    unfold step at hcon
    split_ifs at hcon <;> simp_all

/-- Witness for C5 at concrete inputs: the stopped initial state halts a run;
the running initial state never halts on a read of 5. -/
theorem stop_flag_terminates_witness :
    ({ initState with ulp_stop_flag := 1 } : UlpState).ulp_stop_flag ≠ 0 ∧
    run { initState with ulp_stop_flag := 1 } [5] =
      .halted { initState with ulp_stop_flag := 1 } ∧
    step initState 5 ≠ .halted initState :=
  ⟨by decide,
   (stop_flag_terminates { initState with ulp_stop_flag := 1 } 5 []).1 (by decide),
   (stop_flag_terminates initState 5 []).2 rfl initState⟩

/-- Counterexample to Claim C6 as stated: with `ulp_cycle_count` at
`2 ^ 32 - 1` (a legal `uint32_t` value), a successful reading wraps the
counter to `0`, which is a strict decrease across a loop iteration. -/
theorem cycle_count_wrap_decreases :
    ((step { initState with ulp_cycle_count := W - 1 } 1600).state).ulp_cycle_count
      < ({ initState with ulp_cycle_count := W - 1 } : UlpState).ulp_cycle_count := by
  decide

/-- Claim C6, amended: the cycle counter never decreases across a loop
iteration as long as it has not reached `2 ^ 32 - 1`; at `2 ^ 32 - 1` the
`uint32_t` increment wraps it to `0`. -/
theorem cycle_count_monotonic_below_wrap (s : UlpState) (raw : Int)
    (h0 : s.ulp_stop_flag = 0) (hlt : s.ulp_cycle_count + 1 < W) :
    s.ulp_cycle_count ≤ ((step s raw).state).ulp_cycle_count := by
  unfold step
  split_ifs <;> simp [Nat.mod_eq_of_lt hlt]

/-- Witness for the amended C6 at a concrete input: the initial state and a
successful reading. -/
theorem cycle_count_monotonic_below_wrap_witness :
    initState.ulp_stop_flag = 0 ∧ initState.ulp_cycle_count + 1 < W ∧
    initState.ulp_cycle_count ≤ ((step initState 1600).state).ulp_cycle_count :=
  ⟨rfl, by decide, cycle_count_monotonic_below_wrap initState 1600 rfl (by decide)⟩

/-- Claim C7: the export array of `ulp_exports.c` references exactly six
symbols, which are exactly the six distinct shared variables of the monitor
under the fixed `ulp_` host-side prefix, in declaration order. -/
theorem exports_six_ulp_symbols :
    petfilter_ulp_symbols.length = 6 ∧
    petfilter_ulp_symbols = sharedVariableNames.map (fun n => "ulp_" ++ n) ∧
    sharedVariableNames.Nodup := by
  refine ⟨rfl, rfl, by decide⟩

/-! ### Claims C8 - C10 -/

/-- If an iteration continues the loop and the above-count was strictly below
the confirm count (a `uint32_t`, hence below `2 ^ 32`), the above-count is
still strictly below the confirm count afterwards. -/
lemma step_cont_above_lt {s s' : UlpState} {raw : Int}
    (h : step s raw = .cont s')
    (ha : s.ulp_nh3_above_count < s.ulp_nh3_confirm_count)
    (hW : s.ulp_nh3_confirm_count < W) :
    s'.ulp_nh3_above_count < s'.ulp_nh3_confirm_count := by
  unfold step at h
  split_ifs at h with h1 h2 h3 h4 <;> cases h <;> simp_all <;> omega

/-- Run-level version: a state still at the loop top after consuming any list
of readings keeps the above-count strictly below the confirm count. -/
lemma run_cont_above_lt :
    ∀ (rs : List Int) (s s' : UlpState),
      s.ulp_nh3_above_count < s.ulp_nh3_confirm_count →
      s.ulp_nh3_confirm_count < W →
      run s rs = .cont s' →
      s'.ulp_nh3_above_count < s'.ulp_nh3_confirm_count := by
  intro rs
  induction rs with
  | nil =>
    intro s s' ha hW hrun
    cases hrun
    exact ha
  | cons r rs ih =>
    intro s s' ha hW hrun
    rw [run_cons] at hrun
    cases hstep : step s r with
    | cont s₁ =>
      rw [hstep] at hrun
      exact ih s₁ s' (step_cont_above_lt hstep ha hW)
        ((cont_fields hstep).2.1 ▸ hW) hrun
    | woke s₁ => rw [hstep] at hrun; cases hrun
    | halted s₁ => rw [hstep] at hrun; cases hrun

/-- Claim C8: provided the confirm count is at least 1 (and, being a
`uint32_t`, below `2 ^ 32`) and is never modified during the run (the loop
itself never writes it), starting with the above-count at its initial value 0,
the above-count observed at the top of any later loop iteration is strictly
below the confirm count: a count at or above the confirm count is never
observable across iterations, because that iteration wakes and halts. -/
theorem above_count_lt_confirm_invariant (s s' : UlpState) (rs : List Int)
    (h1 : 1 ≤ s.ulp_nh3_confirm_count)
    (hW : s.ulp_nh3_confirm_count < W)
    (ha : s.ulp_nh3_above_count = 0)
    (hrun : run s rs = .cont s') :
    s'.ulp_nh3_above_count < s'.ulp_nh3_confirm_count :=
  run_cont_above_lt rs s s' (by omega) hW hrun

/-- Witness for C8 at a concrete input: the initial state after the readings
[1600, 1600, 1200, 1600]. -/
theorem above_count_lt_confirm_invariant_witness :
    1 ≤ initState.ulp_nh3_confirm_count ∧
    initState.ulp_nh3_confirm_count < W ∧
    initState.ulp_nh3_above_count = 0 ∧
    run initState [1600, 1600, 1200, 1600] =
      .cont { initState with ulp_nh3_last_reading := 1600,
                             ulp_nh3_above_count := 1, ulp_cycle_count := 4 } ∧
    ({ initState with ulp_nh3_last_reading := 1600,
                      ulp_nh3_above_count := 1,
                      ulp_cycle_count := 4 } : UlpState).ulp_nh3_above_count <
      ({ initState with ulp_nh3_last_reading := 1600,
                        ulp_nh3_above_count := 1,
                        ulp_cycle_count := 4 } : UlpState).ulp_nh3_confirm_count :=
  ⟨by decide, by decide, rfl, by decide,
   above_count_lt_confirm_invariant initState _ [1600, 1600, 1200, 1600]
     (by decide) (by decide) rfl (by decide)⟩

/-- A `woke` iteration can only come from a successful reading at or above the
threshold. -/
lemma step_woke_above {s s' : UlpState} {raw : Int}
    (h : step s raw = .woke s') :
    0 ≤ raw ∧ s.ulp_nh3_threshold_adc ≤ raw.toNat := by
  unfold step at h
  split_ifs at h with h1 h2 h3 h4 <;> cases h <;> exact ⟨by omega, h3⟩

/-- A run that ends in `woke` contains at least one successful reading at or
above the (loop-constant) threshold. -/
lemma run_woke_has_above :
    ∀ (rs : List Int) (s s' : UlpState),
      run s rs = .woke s' →
      ∃ r ∈ rs, 0 ≤ r ∧ s.ulp_nh3_threshold_adc ≤ r.toNat := by
  intro rs
  induction rs with
  | nil => intro s s' hrun; cases hrun
  | cons r rs ih =>
    intro s s' hrun
    rw [run_cons] at hrun
    cases hstep : step s r with
    | cont s₁ =>
      rw [hstep] at hrun
      obtain ⟨r', hmem, hpos, hth⟩ := ih s₁ s' hrun
      exact ⟨r', List.mem_cons_of_mem _ hmem,
        hpos, (cont_fields hstep).1 ▸ hth⟩
    | woke s₁ =>
      obtain ⟨hpos, hth⟩ := step_woke_above hstep
      exact ⟨r, List.mem_cons_self r rs, hpos, hth⟩
    | halted s₁ => rw [hstep] at hrun; cases hrun

/-- Claim C9: the wake trigger is the post-increment test
`above_count >= confirm_count`, so (a) whenever the confirm count is at or
below the current above-count (e.g. the host lowered it, or set it to 0), the
very next successful at-or-above-threshold reading wakes; and (b) a wake never
fires without at least one successful at-or-above-threshold reading having
occurred. -/
theorem wake_on_next_above_when_confirm_low (s : UlpState) :
    (∀ raw : Int, s.ulp_stop_flag = 0 → 0 ≤ raw →
      s.ulp_nh3_threshold_adc ≤ raw.toNat →
      s.ulp_nh3_confirm_count ≤ s.ulp_nh3_above_count →
      s.ulp_nh3_above_count + 1 < W →
      ∃ s', step s raw = .woke s') ∧
    (∀ (rs : List Int) (s' : UlpState), run s rs = .woke s' →
      ∃ r ∈ rs, 0 ≤ r ∧ s.ulp_nh3_threshold_adc ≤ r.toNat) := by
  constructor
  · intro raw h0 hpos hth hle hnw
    unfold step
    rw [if_neg (by simp [h0]), if_neg (not_lt.mpr hpos), if_pos hth,
      if_pos (by rw [Nat.mod_eq_of_lt hnw]; omega)]
    exact ⟨_, rfl⟩
  · intro rs s' hrun
    exact run_woke_has_above rs s s' hrun

/-- Witness for C9 at a concrete input: confirm count lowered to 0, next
above-threshold reading 1600 wakes immediately; and the concrete woke run
[1600] indeed contains an above-threshold success. -/
theorem wake_on_next_above_when_confirm_low_witness :
    (∃ s', step { initState with ulp_nh3_confirm_count := 0 } 1600 = .woke s') ∧
    (∃ r ∈ [(1600 : Int)], 0 ≤ r ∧
      ({ initState with ulp_nh3_confirm_count := 0 } : UlpState).ulp_nh3_threshold_adc ≤ r.toNat) :=
  ⟨(wake_on_next_above_when_confirm_low { initState with ulp_nh3_confirm_count := 0 }).1
      1600 rfl (by decide) (by decide) (by decide) (by decide),
   (wake_on_next_above_when_confirm_low { initState with ulp_nh3_confirm_count := 0 }).2
      [1600] ⟨1500, 1600, 1, 0, 1, 0⟩ (by decide)⟩

/-- One iteration either leaves the last reading unchanged or records the
(non-negative) reading it just took. -/
lemma step_last_char (s : UlpState) (raw : Int) :
    ((step s raw).state).ulp_nh3_last_reading = s.ulp_nh3_last_reading ∨
    (0 ≤ raw ∧ ((step s raw).state).ulp_nh3_last_reading = raw.toNat) := by
  unfold step
  split_ifs <;> simp_all <;> omega

/-- One iteration keeps the last reading below `2 ^ 31` when the supplied
read result is below `2 ^ 31` (as every `int32_t` is). -/
lemma step_last_bound (s : UlpState) (raw : Int)
    (hs : s.ulp_nh3_last_reading < 2 ^ 31) (hr : raw < 2 ^ 31) :
    ((step s raw).state).ulp_nh3_last_reading < 2 ^ 31 := by
  rcases step_last_char s raw with h | ⟨hp, h⟩ <;> rw [h] <;> omega

/-- Run-level bound on the last reading. -/
lemma run_last_bound :
    ∀ (rs : List Int) (s : UlpState),
      s.ulp_nh3_last_reading < 2 ^ 31 → (∀ r ∈ rs, r < 2 ^ 31) →
      ((run s rs).state).ulp_nh3_last_reading < 2 ^ 31 := by
  intro rs
  induction rs with
  | nil =>
    intro s hs _
    simpa [run] using hs
  | cons r rs ih =>
    intro s hs hr
    have hb := step_last_bound s r hs (hr r (List.mem_cons_self r rs))
    rw [run_cons]
    cases hstep : step s r with
    | cont s₁ =>
      rw [hstep] at hb
      exact ih s₁ (by simpa using hb) (fun r' hm => hr r' (List.mem_cons_of_mem _ hm))
    | woke s₁ =>
      rw [hstep] at hb
      simpa using hb
    | halted s₁ =>
      rw [hstep] at hb
      simpa using hb

/-- Run-level source of the last reading: it is the value the run started
with, or the value of some successful reading that the run consumed. -/
lemma run_last_source :
    ∀ (rs : List Int) (s : UlpState),
      ((run s rs).state).ulp_nh3_last_reading = s.ulp_nh3_last_reading ∨
      ∃ r ∈ rs, 0 ≤ r ∧ ((run s rs).state).ulp_nh3_last_reading = r.toNat := by
  intro rs
  induction rs with
  | nil =>
    intro s
    left
    simp [run]
  | cons r rs ih =>
    intro s
    have hchar := step_last_char s r
    rw [run_cons]
    cases hstep : step s r with
    | cont s₁ =>
      rw [hstep] at hchar
      simp only [MonitorResult.state_cont] at hchar
      rcases ih s₁ with h | ⟨r', hm, hp, h⟩
      · rcases hchar with hc | ⟨hp, hc⟩
        · left
          rw [h, hc]
        · right
          exact ⟨r, List.mem_cons_self r rs, hp, by rw [h, hc]⟩
      · right
        exact ⟨r', List.mem_cons_of_mem _ hm, hp, h⟩
    | woke s₁ =>
      rw [hstep] at hchar
      rcases hchar with hc | ⟨hp, hc⟩
      · left
        simpa using hc
      · right
        exact ⟨r, List.mem_cons_self r rs, hp, by simpa using hc⟩
    | halted s₁ =>
      rw [hstep] at hchar
      rcases hchar with hc | ⟨hp, hc⟩
      · left
        simpa using hc
      · right
        exact ⟨r, List.mem_cons_self r rs, hp, by simpa using hc⟩

/-- Claim C10: the last-reading variable is written exactly by successful
reads (a failed read leaves it alone, a successful read stores the value just
read, so it always holds the most recent successful reading); over any run it
is its starting value (initially 0) or the value of some successful consumed
reading; and, since an `int32_t` read result is below `2 ^ 31`, it stays
strictly below `2 ^ 31`. -/
theorem last_reading_tracks_reads (s : UlpState) :
    (∀ raw : Int, s.ulp_stop_flag = 0 →
      ((step s raw).state).ulp_nh3_last_reading =
        if 0 ≤ raw then raw.toNat else s.ulp_nh3_last_reading) ∧
    (∀ rs : List Int,
      ((run s rs).state).ulp_nh3_last_reading = s.ulp_nh3_last_reading ∨
      ∃ r ∈ rs, 0 ≤ r ∧ ((run s rs).state).ulp_nh3_last_reading = r.toNat) ∧
    (∀ rs : List Int, s.ulp_nh3_last_reading < 2 ^ 31 →
      (∀ r ∈ rs, r < 2 ^ 31) →
      ((run s rs).state).ulp_nh3_last_reading < 2 ^ 31) := by
  refine ⟨?_, fun rs => run_last_source rs s, fun rs => run_last_bound rs s⟩
  intro raw h0
  unfold step
  split_ifs <;> simp_all <;> omega

/-- Witness for C10 at a concrete input: the initial state, a successful
reading 1600, and the run [1600, -5]. -/
theorem last_reading_tracks_reads_witness :
    initState.ulp_stop_flag = 0 ∧
    ((step initState 1600).state).ulp_nh3_last_reading =
      (if (0 : Int) ≤ 1600 then (1600 : Int).toNat
       else initState.ulp_nh3_last_reading) ∧
    initState.ulp_nh3_last_reading < 2 ^ 31 ∧
    (∀ r ∈ [(1600 : Int), -5], r < 2 ^ 31) ∧
    ((run initState [1600, -5]).state).ulp_nh3_last_reading < 2 ^ 31 :=
  ⟨rfl, (last_reading_tracks_reads initState).1 1600 rfl, by decide, by decide,
   (last_reading_tracks_reads initState).2.2 [1600, -5] (by decide) (by decide)⟩

/-! ### Claim C1: the wake signal fires iff confirm_count consecutive
successful readings at or above the threshold occur. -/

lemma successVals_cons_neg {r : Int} (rs : List Int) (hneg : r < 0) :
    successVals (r :: rs) = successVals rs := by
  simp [successVals, List.filterMap_cons, not_le.mpr hneg]

lemma successVals_cons_nonneg {r : Int} (rs : List Int) (hpos : 0 ≤ r) :
    successVals (r :: rs) = r.toNat :: successVals rs := by
  simp [successVals, List.filterMap_cons, hpos]

/-- A run over concatenated reading lists: the second list only matters if
the first left the loop still running. -/
lemma run_append :
    ∀ (xs ys : List Int) (s : UlpState),
      run s (xs ++ ys) =
        match run s xs with
        | .cont s' => run s' ys
        | .woke s' => .woke s'
        | .halted s' => .halted s' := by
  intro xs
  induction xs with
  | nil => intro ys s; rfl
  | cons x xs ih =>
    intro ys s
    show run s (x :: (xs ++ ys)) = _
    rw [run_cons, run_cons]
    cases step s x with
    | cont s₁ => exact ih ys s₁
    | woke s₁ => rfl
    | halted s₁ => rfl

/-- Generalized invariant for the wake-iff proof: with the loop at its top,
stop flag clear, threshold `thr`, confirm count `c` and above-count strictly
below `c`, the run wakes exactly when either the successful readings start
with `c - above_count` consecutive at-or-above values, or `c` consecutive
at-or-above values occur somewhere later. -/
lemma run_woke_iff_aux (thr c : Nat) :
    ∀ (rs : List Int) (s : UlpState),
      s.ulp_stop_flag = 0 → s.ulp_nh3_threshold_adc = thr →
      s.ulp_nh3_confirm_count = c → s.ulp_nh3_above_count < c → c < W →
      ((∃ s', run s rs = .woke s') ↔
        (c - s.ulp_nh3_above_count ≤ aboveRun thr (successVals rs) ∨
         ∃ i, c ≤ aboveRun thr ((successVals rs).drop i))) := by
  intro rs
  induction rs with
  | nil =>
    intro s h0 hth hc ha hW
    constructor
    · rintro ⟨s', hs'⟩
      simp [run] at hs'
    · rintro (h | ⟨i, hi⟩)
      · exfalso
        simp [successVals, aboveRun] at h
        omega
      · exfalso
        simp [successVals, aboveRun] at hi
        omega
  | cons r rs ih =>
    intro s h0 hth hc ha hW
    by_cases hneg : r < 0
    · have hstep : step s r = .cont s := by simp [step, h0, hneg]
      have hrun : run s (r :: rs) = run s rs := by rw [run_cons, hstep]
      rw [hrun, successVals_cons_neg rs hneg]
      exact ih s h0 hth hc ha hW
    push_neg at hneg
    rw [successVals_cons_nonneg rs hneg]
    have hmod : (s.ulp_nh3_above_count + 1) % W = s.ulp_nh3_above_count + 1 :=
      Nat.mod_eq_of_lt (by omega)
    by_cases habove : thr ≤ r.toNat
    · by_cases hfire : c ≤ s.ulp_nh3_above_count + 1
      · have hstep : step s r = .woke
            { s with ulp_nh3_last_reading := r.toNat
                     ulp_cycle_count := (s.ulp_cycle_count + 1) % W
                     ulp_nh3_above_count := s.ulp_nh3_above_count + 1 } := by
          unfold step
          rw [if_neg (by simp [h0]), if_neg (not_lt.mpr hneg),
            if_pos (by rw [hth]; exact habove), hmod,
            if_pos (by rw [hc]; exact hfire)]
        constructor
        · intro _
          left
          simp [aboveRun, habove]
          omega
        · intro _
          refine ⟨{ s with ulp_nh3_last_reading := r.toNat
                           ulp_cycle_count := (s.ulp_cycle_count + 1) % W
                           ulp_nh3_above_count := s.ulp_nh3_above_count + 1 }, ?_⟩
          rw [run_cons, hstep]
      · have hstep : step s r = .cont
            { s with ulp_nh3_last_reading := r.toNat
                     ulp_cycle_count := (s.ulp_cycle_count + 1) % W
                     ulp_nh3_above_count := s.ulp_nh3_above_count + 1 } := by
          unfold step
          rw [if_neg (by simp [h0]), if_neg (not_lt.mpr hneg),
            if_pos (by rw [hth]; exact habove), hmod,
            if_neg (by rw [hc]; exact hfire)]
        have hrun : run s (r :: rs) = run
            { s with ulp_nh3_last_reading := r.toNat
                     ulp_cycle_count := (s.ulp_cycle_count + 1) % W
                     ulp_nh3_above_count := s.ulp_nh3_above_count + 1 } rs := by
          rw [run_cons, hstep]
        rw [hrun, ih { s with ulp_nh3_last_reading := r.toNat
                              ulp_cycle_count := (s.ulp_cycle_count + 1) % W
                              ulp_nh3_above_count := s.ulp_nh3_above_count + 1 }
          h0 hth hc (by simp; omega) hW]
        simp only [aboveRun, if_pos habove]
        constructor
        · rintro (h | ⟨i, hi⟩)
          · left
            simp at h ⊢
            omega
          · right
            exact ⟨i + 1, by simpa using hi⟩
        · rintro (h | ⟨i, hi⟩)
          · left
            simp at h ⊢
            omega
          · cases i with
            | zero =>
              left
              simp [aboveRun, habove] at hi
              simp
              omega
            | succ j =>
              right
              exact ⟨j, by simpa using hi⟩
    · have hstep : step s r = .cont
          { s with ulp_nh3_last_reading := r.toNat
                   ulp_cycle_count := (s.ulp_cycle_count + 1) % W
                   ulp_nh3_above_count := 0 } := by
        unfold step
        rw [if_neg (by simp [h0]), if_neg (not_lt.mpr hneg),
          if_neg (by rw [hth]; exact habove)]
      have hrun : run s (r :: rs) = run
          { s with ulp_nh3_last_reading := r.toNat
                   ulp_cycle_count := (s.ulp_cycle_count + 1) % W
                   ulp_nh3_above_count := 0 } rs := by
        rw [run_cons, hstep]
      rw [hrun, ih { s with ulp_nh3_last_reading := r.toNat
                            ulp_cycle_count := (s.ulp_cycle_count + 1) % W
                            ulp_nh3_above_count := 0 }
        h0 hth hc (by simp; omega) hW]
      simp only [aboveRun, if_neg habove]
      constructor
      · rintro (h | ⟨i, hi⟩)
        · right
          refine ⟨1, ?_⟩
          simp at h ⊢
          omega
        · right
          exact ⟨i + 1, by simpa using hi⟩
      · rintro (h | ⟨i, hi⟩)
        · exfalso
          omega
        · cases i with
          | zero =>
            exfalso
            simp [aboveRun, habove] at hi
            omega
          | succ j =>
            right
            exact ⟨j, by simpa using hi⟩

/-- Claim C1: starting at the top of the loop with the above-count at 0, the
stop flag clear and a confirm count of at least 1 (a `uint32_t`, hence below
`2 ^ 32`), the run signals the wake (`ulp_riscv_wakeup_main_processor`,
modelled by the `woke` outcome) if and only if somewhere in the successful
readings `c` consecutive values at or above the threshold occur (the
comparison being `>=`, equality counts); and once the wake fires the program
has halted, so any further supplied readings are never consumed. -/
theorem wake_iff_confirm_consecutive (s : UlpState) (rs : List Int)
    (thr c : Nat)
    (h0 : s.ulp_stop_flag = 0) (hth : s.ulp_nh3_threshold_adc = thr)
    (hc : s.ulp_nh3_confirm_count = c) (ha : s.ulp_nh3_above_count = 0)
    (h1 : 1 ≤ c) (hW : c < W) :
    ((∃ s', run s rs = .woke s') ↔ ConsecutiveAbove thr c (successVals rs)) ∧
    (∀ (s' : UlpState) (more : List Int), run s rs = .woke s' →
      run s (rs ++ more) = .woke s') := by
  constructor
  · rw [run_woke_iff_aux thr c rs s h0 hth hc (by omega) hW]
    unfold ConsecutiveAbove
    constructor
    · rintro (h | ⟨i, hi⟩)
      · exact ⟨0, by simpa [ha] using h⟩
      · exact ⟨i, hi⟩
    · rintro ⟨i, hi⟩
      right
      exact ⟨i, hi⟩
  · intro s' more hrun
    rw [run_append, hrun]

/-- Witness for C1 at a concrete input: the initial state (threshold 1500,
confirm count 3) and a reading list with one failure, one reset, and then
three consecutive at-or-above readings, the last exactly at the threshold. -/
theorem wake_iff_confirm_consecutive_witness :
    initState.ulp_stop_flag = 0 ∧ initState.ulp_nh3_threshold_adc = 1500 ∧
    initState.ulp_nh3_confirm_count = 3 ∧ initState.ulp_nh3_above_count = 0 ∧
    1 ≤ 3 ∧ (3 : Nat) < W ∧
    ((∃ s', run initState [1600, -1, 1400, 1600, 1550, 1500] = .woke s') ↔
      ConsecutiveAbove 1500 3 (successVals [1600, -1, 1400, 1600, 1550, 1500])) :=
  ⟨rfl, rfl, rfl, rfl, by decide, by decide,
   (wake_iff_confirm_consecutive initState [1600, -1, 1400, 1600, 1550, 1500]
     1500 3 rfl rfl rfl rfl (by decide) (by decide)).1⟩

end PetFilter
